import Mathlib

/-!
Verification of the template-instantiation core of the `vscode-project-templates`
extension, embedded shallowly from `src/unnamed/part_002` (class
`ProjectTemplatesPlugin`, the authoritative `templateManager`) and the
`fsutils` helpers.  Interactive prompts are modelled by a finite stream of
user answers (`List (Option String)`): each prompt consumes one element,
`none` standing for a cancelled prompt.  The filesystem is modelled by a flat
map from '/'-separated path strings to contents, plus a set of directory
paths.  JavaScript truthiness of `string | undefined` values is modelled by
`truthy` (`undefined` and `""` are falsy).
-/

set_option autoImplicit false

namespace ProjectTemplates

/-- Placeholder dictionary, as the JS object `placeholders` used by
`resolvePlaceholders`: later assignments shadow earlier ones. -/
abbrev Dict := List (String × String)

/-- Lookup of `placeholders[key]`, `none` when the key is absent. -/
def lookupD : Dict → String → Option String
  | [], _ => none
  | (k, v) :: rest, key => if k = key then some v else lookupD rest key

/-- Assignment `placeholders[key] = value`. -/
def insertD (d : Dict) (k v : String) : Dict := (k, v) :: d

/-- JavaScript truthiness of a `string | undefined` value: `undefined`
(`none`) and the empty string are falsy. -/
def truthy : Option String → Bool
  | none => false
  | some s => !(s = "")

/-- One interactive prompt: consume the next user answer from the stream;
an exhausted stream behaves as a cancelled prompt. -/
def askUser : List (Option String) → Option String × List (Option String)
  | [] => (none, [])
  | a :: o => (a, o)

/-! ### The default placeholder pattern

The engine compiles `this.config.get("placeholderRegExp", "#{(\\w+?)}")` with
the `g` flag; we embed the default pattern.  A match is `#`, `{`, a non-empty
run of word characters (the capture group, i.e. the key), then `}`; the lazy
`\w+?` is equivalent to the maximal word run here because `}` is not a word
character.  `RegExp.exec` iteration yields the non-overlapping
leftmost-first matches. -/

/-- JavaScript `\w`: ASCII letters, digits and underscore. -/
def isWordChar (c : Char) : Bool := c.isAlphanum || c = '_'

/-- Try to match the default pattern at the head of the character list.
Returns `(full matched token, captured key, remainder after the match)`. -/
def tryMatch (cs : List Char) : Option (List Char × List Char × List Char) :=
  match cs with
  | '#' :: '\x7b' :: rest =>
    let w := rest.takeWhile isWordChar
    match w, rest.dropWhile isWordChar with
    | [], _ => none
    | _, '\x7d' :: r => some ('#' :: '\x7b' :: (w ++ ['\x7d']), w, r)
    | _, _ => none
  | _ => none

/-- Scan for all matches, leftmost first, non-overlapping, as `regex.exec`
iteration does.  The fuel argument is always instantiated with the input
length, which bounds the number of scanning steps. -/
def findAux : Nat → List Char → List (String × String)
  | 0, _ => []
  | _, [] => []
  | Nat.succ n, c :: rest =>
    match tryMatch (c :: rest) with
    | some (tok, key, rem) => (String.mk tok, String.mk key) :: findAux n rem
    | none => findAux n rest

/-- All matches `(match[0], match[1])` of the default placeholder pattern in
a string, in order of appearance. -/
def findMatches (s : String) : List (String × String) :=
  findAux s.data.length s.data

/-- The replacement callback of the substitution pass
(`str.replace(regex, (match, key) => ...)`): use `placeholders[key]`,
falling back to the matched token itself when the value is falsy. -/
def replaceFn (d : Dict) (tok key : String) : String :=
  match lookupD d key with
  | some v => if v = "" then tok else v
  | none => tok

/-- `str.replace(regex, fn)`: rewrite every match via `replaceFn`, copying
non-matching characters unchanged. -/
def substAux : Nat → List Char → Dict → List Char
  | 0, cs, _ => cs
  | _, [], _ => []
  | Nat.succ n, c :: rest, d =>
    match tryMatch (c :: rest) with
    | some (tok, key, rem) =>
      (replaceFn d (String.mk tok) (String.mk key)).data ++ substAux n rem d
    | none => c :: substAux n rest d

/-- Substitution pass over a whole string. -/
def substitute (s : String) (d : Dict) : String :=
  String.mk (substAux s.data.length s.data d)

/-- Result of the scanning pass of `resolvePlaceholders`: the updated
dictionary, the remaining answer stream, and the trace of interactive
prompts `(key, answer)` that were issued, in order. -/
structure ScanResult where
  dict : Dict
  oracle : List (Option String)
  trace : List (String × Option String)
  deriving DecidableEq

/-- The dictionary update performed by the prompt callback
`value => { if (value) placeholders[key] = value; return value; }`:
a truthy answer is stored, a falsy one (cancel or empty) is not. -/
def dictAfter (d : Dict) (key : String) : Option String → Dict
  | some v => if v = "" then d else insertD d key v
  | none => d

/-- The scanning `while (match = regex.exec(str))` loop of
`resolvePlaceholders`: for each match in order, if `placeholders[key]` is
falsy, prompt the user and store a truthy answer into the dictionary. -/
def scanPass : List (String × String) → Dict → List (Option String) → ScanResult
  | [], d, o => ⟨d, o, []⟩
  | (_tok, key) :: ms, d, o =>
    if truthy (lookupD d key) then scanPass ms d o
    else
      let r := scanPass ms (dictAfter d key (askUser o).1) ((askUser o).2)
      ⟨r.dict, r.oracle, (key, (askUser o).1) :: r.trace⟩

/-- Result of `resolvePlaceholders`. -/
structure ResolveResult where
  out : String
  dict : Dict
  oracle : List (Option String)
  trace : List (String × Option String)
  deriving DecidableEq

/-- `resolvePlaceholders` (string branch, default pattern): scan all matches,
prompting for keys with falsy values, then — only when at least one match was
found — run the substitution pass with the post-scan dictionary; with zero
matches the input is returned as is. -/
def resolvePlaceholders (s : String) (d : Dict) (o : List (Option String)) :
    ResolveResult :=
  let ms := findMatches s
  let r := scanPass ms d o
  ⟨if ms.isEmpty then s else substitute s r.dict, r.dict, r.oracle, r.trace⟩

/-- A run of several `resolvePlaceholders` calls threading the dictionary and
the answer stream, as `createFromTemplate` does across filename and content
resolution of successive files; the traces are concatenated in order. -/
def resolveRun : List String → Dict → List (Option String) →
    Dict × List (Option String) × List (String × Option String)
  | [], d, o => (d, o, [])
  | s :: rest, d, o =>
    let r := resolvePlaceholders s d o
    let r2 := resolveRun rest r.dict r.oracle
    (r2.1, r2.2.1, r.trace ++ r2.2.2)

/-! ### Filesystem and path model

Paths are flat '/'-separated strings (the extension runs on POSIX-style
`fsPath`s); the destination-side filesystem is a map from path to file
content plus a set of directory paths.  `fs.lstatSync(p).isFile()` /
`.isDirectory()` and `fs.existsSync` become lookups. -/

structure FS where
  files : List (String × String)
  dirs : List String
  deriving DecidableEq

/-- `fs.lstatSync(p).isFile()` (and existence of `p` as a file). -/
def isFileFS (fs : FS) (p : String) : Bool :=
  (lookupD fs.files p).isSome

/-- `fs.lstatSync(p).isDirectory()` (and existence of `p` as a directory). -/
def isDirFS (fs : FS) (p : String) : Bool :=
  fs.dirs.contains p

/-- `fs.existsSync(p)`. -/
def existsFS (fs : FS) (p : String) : Bool :=
  isFileFS fs p || isDirFS fs p

/-- `fs.mkdirSync(p)`. -/
def mkdirFS (fs : FS) (p : String) : FS :=
  { fs with dirs := p :: fs.dirs }

/-- `fs.unlinkSync(p)`. -/
def unlinkFS (fs : FS) (p : String) : FS :=
  { fs with files := fs.files.filter (fun e => !(e.1 = p)) }

/-- `fs.writeFileSync(p, c)`: create or overwrite the file at `p`. -/
def writeFileFS (fs : FS) (p c : String) : FS :=
  { fs with files := (p, c) :: fs.files.filter (fun e => !(e.1 = p)) }

/-- `path.join(a, b)` for a directory and a relative entry, as used by the
walk and the rename normalisation (no `.`/`..` segments arise there). -/
def pathJoin (a b : String) : String := a ++ "/" ++ b

/-- String prefix test (structural, over the character lists). -/
def strPrefixOf (a b : String) : Bool := List.isPrefixOf a.data b.data

/-- Drop the first `n` characters of a string (structural). -/
def strDrop (s : String) (n : Nat) : String := String.mk (s.data.drop n)

/-- POSIX `path.isAbsolute`. -/
def isAbsolutePath (p : String) : Bool := strPrefixOf "/" p

/-- POSIX `path.relative(fr, dst)` in the case the engine uses it: `dst` is a
path beneath the root `fr`, so the relative path is the remainder after the
root prefix; other inputs are returned unchanged. -/
def relativePath (fr dst : String) : String :=
  if strPrefixOf (fr ++ "/") dst then strDrop dst (fr.length + 1) else dst

/-- Split a character list at every `'/'` (the semantics of
`String.splitOn "/"`). -/
def splitSlash : List Char → List (List Char)
  | [] => [[]]
  | c :: rest =>
    if c = '/' then [] :: splitSlash rest
    else
      match splitSlash rest with
      | [] => [[c]]
      | g :: gs => (c :: g) :: gs

/-- The '/'-separated components of a path. -/
def pathParts (p : String) : List String := (splitSlash p.data).map String.mk

/-- Join components back with `'/'`. -/
def joinParts : List String → String
  | [] => ""
  | [p] => p
  | p :: rest => p ++ "/" ++ joinParts rest

/-- POSIX `path.dirname` on '/'-separated paths. -/
def dirname (p : String) : String :=
  match (pathParts p).dropLast with
  | [] => "."
  | [""] => "/"
  | parts => joinParts parts

/-- The chain of ancestor directories denoted by a path: every non-trivial
'/'-separated prefix, innermost last. -/
def ancestorChain (p : String) : List String :=
  match pathParts p with
  | [] => []
  | first :: rest =>
    ((rest.foldl (fun (acc : List String × String) part =>
        let q := acc.2 ++ "/" ++ part
        (q :: acc.1, q))
      ([first], first)).1).reverse.filter (fun s => !(s = "" || s = "/"))

/-- Modelled from the spec: `fsutils.mkdirsSync(p)` is called by the engine
(`part_002` line 645) but its definition is not among the provided sources;
per the spec it ensures that the directory chain up to `p` exists, creating
every missing ancestor.  On the flat-path filesystem this records `p` and
all its ancestors as directories. -/
def mkdirsFS (fs : FS) (p : String) : FS :=
  { fs with dirs := ancestorChain p ++ fs.dirs }

/-! ### The version-control skip test

`createFromTemplate.copyFunc` skips a source path when
`/\/.git($|\/)/ig.test(src)` holds.  The regex literal is re-created on each
evaluation, so the `g` flag has no lastIndex effect; `i` makes `git`
case-insensitive; the dot is the (unescaped) regex any-character class,
which excludes line terminators. -/

/-- A character matched by the unescaped regex `.` (no line terminators). -/
def regexDotChar (c : Char) : Bool :=
  !(c = '\n') && !(c = '\r') && !(c.val = 0x2028) && !(c.val = 0x2029)

/-- Does `\/.git($|\/)` (with the `i` flag) match at the head of the list? -/
def gitMatchAt : List Char → Bool
  | c0 :: c1 :: c2 :: c3 :: c4 :: rest =>
    (c0 = '/') && regexDotChar c1 && (c2 = 'g' || c2 = 'G') &&
      (c3 = 'i' || c3 = 'I') && (c4 = 't' || c4 = 'T') &&
      (rest.isEmpty || rest.head? = some '/')
  | _ => false

/-- Does the pattern match anywhere in the list? -/
def gitSkipAux : List Char → Bool
  | [] => false
  | c :: rest => gitMatchAt (c :: rest) || gitSkipAux rest

/-- The skip test `/\/.git($|\/)/ig.test(src)` of `copyFunc`. -/
def gitSkip (s : String) : Bool := gitSkipAux s.data

/-! ### The instantiation engine (`createFromTemplate` + `recursiveApplyInDir`)

The source template tree is an inductive tree (`readdirSync`/`lstatSync` on
the source side are total there); the destination side is the mutable `FS`.
The engine state threads the destination filesystem, the placeholder
dictionary and the stream of pending user answers. -/

mutual
/-- A node of the source template tree. -/
inductive FTree where
  | file (content : String) : FTree
  | dir (entries : EntryList) : FTree
/-- The `readdirSync` listing of a source directory, in iteration order. -/
inductive EntryList where
  | nil : EntryList
  | cons (name : String) (child : FTree) (rest : EntryList) : EntryList
end

/-- Concatenation of directory listings (used to state traversal claims). -/
def appendEL : EntryList → EntryList → EntryList
  | .nil, q => q
  | .cons n c rest, q => .cons n c (appendEL rest q)

/-- Mutable state threaded through an instantiation run. -/
structure EngState where
  fs : FS
  dict : Dict
  oracle : List (Option String)
  deriving DecidableEq

/-- An interactive prompt issued during collision resolution: a text input
pre-filled with a default, or the Overwrite/Rename/Skip/Abort pick, labelled
with the destination-root-relative path it shows. -/
inductive PEvent where
  | ask (dfault : String) : PEvent
  | pick (rel : String) : PEvent
  deriving DecidableEq

/-- Outcome of the `while (fs.existsSync(dest))` collision loop of
`copyFunc` for a file entry, with the prompts it issued in order. -/
inductive CollisionResult where
  | write (fs : FS) (dest : String) (oracle : List (Option String))
      (tr : List PEvent) : CollisionResult
  | skip (fs : FS) (oracle : List (Option String)) (tr : List PEvent) :
      CollisionResult
  | abort (fs : FS) (oracle : List (Option String)) (tr : List PEvent) :
      CollisionResult
  | hang (tr : List PEvent) : CollisionResult
  deriving DecidableEq

/-- Record one more prompt, issued before the ones already in the result. -/
def CollisionResult.push (e : PEvent) : CollisionResult → CollisionResult
  | write fs d o tr => write fs d o (e :: tr)
  | skip fs o tr => skip fs o (e :: tr)
  | abort fs o tr => abort fs o (e :: tr)
  | hang tr => hang (e :: tr)

/-- The new destination candidate after a rename prompt
(`part_002` lines 581-593 and 614-626): a falsy answer keeps the current
destination; the result is rooted at the workspace when it is not
absolute. -/
def renameCandidate (ws dest : String) (ans : Option String) : String :=
  let d1 := match ans with
    | some v => if v = "" then dest else v
    | none => dest
  if isAbsolutePath d1 then d1 else pathJoin ws d1

/-- The collision loop of `copyFunc` (`part_002` lines 569-635).  While the
destination exists: if it is not a plain file, prompt for a new name
(pre-filled with the root-relative path), keep the old name on a falsy
answer, root a relative answer at the workspace, and re-check; if it is a
plain file, offer Overwrite (unlink, re-check), Rename (same input prompt),
Skip, and Abort — any other pick outcome, including cancelling, aborts.  A
prompt reached with no pending user answers leaves the run waiting forever
(`hang`). -/
def collisionLoop (ws : String) (fs : FS) (dest : String) :
    List (Option String) → CollisionResult
  | [] =>
    if existsFS fs dest = false then .write fs dest [] []
    else if isFileFS fs dest = false then .hang [.ask (relativePath ws dest)]
    else .hang [.pick (relativePath ws dest)]
  | ans :: rest =>
    if existsFS fs dest = false then .write fs dest (ans :: rest) []
    else if isFileFS fs dest = false then
      (collisionLoop ws fs (renameCandidate ws dest ans) rest).push
        (.ask (relativePath ws dest))
    else if ans = some "Overwrite" then
      (collisionLoop ws (unlinkFS fs dest) dest rest).push
        (.pick (relativePath ws dest))
    else if ans = some "Rename" then
      match rest with
      | [] => .hang [.pick (relativePath ws dest), .ask (relativePath ws dest)]
      | rans :: rest2 =>
        ((collisionLoop ws fs (renameCandidate ws dest rans) rest2).push
          (.ask (relativePath ws dest))).push (.pick (relativePath ws dest))
    else if ans = some "Skip" then .skip fs rest [.pick (relativePath ws dest)]
    else .abort fs rest [.pick (relativePath ws dest)]

/-- Result of one `copyFunc` application, as seen by the recursive walk:
`cont` is `return true`, `halt` is `return false` (abort the walk), `err` is
a thrown `Error`, `hang` a run stuck waiting on a prompt. -/
inductive StepResult where
  | cont (st : EngState) : StepResult
  | halt (st : EngState) : StepResult
  | err (msg : String) (st : EngState) : StepResult
  | hang : StepResult
  deriving DecidableEq

/-- The filename-resolution step at the top of `copyFunc`: when
`usePlaceholders` is set, run the destination path through
`resolvePlaceholders`. -/
def resolveDestName (useP : Bool) (dest : String) (st : EngState) :
    String × EngState :=
  if useP then
    let r := resolvePlaceholders dest st.dict st.oracle
    (r.out, { st with dict := r.dict, oracle := r.oracle })
  else (dest, st)

/-- The content-resolution step of `copyFunc` before writing a file. -/
def resolveContent (useP : Bool) (content : String) (st : EngState) :
    String × EngState :=
  if useP then
    let r := resolvePlaceholders content st.dict st.oracle
    (r.out, { st with dict := r.dict, oracle := r.oracle })
  else (content, st)

/-- `createFromTemplate.copyFunc` (`part_002` lines 546-652): resolve
placeholders in the destination name, skip version-control paths, create
directories (throwing on a file of the same name), and for files run the
collision loop, then read, resolve and write the contents after ensuring
the parent directory chain exists. -/
def copyFunc (ws : String) (useP : Bool) (src : String) (node : FTree)
    (dest0 : String) (st0 : EngState) : StepResult :=
  let p := resolveDestName useP dest0 st0
  let dest := p.1
  let st := p.2
  if gitSkip src then .cont st
  else
    match node with
    | .dir _ =>
      if existsFS st.fs dest = false then
        .cont { st with fs := mkdirFS st.fs dest }
      else if isDirFS st.fs dest = false then
        .err ("Failed to create directory " ++ dest ++
          ": file with same name exists.") st
      else .cont st
    | .file content =>
      match collisionLoop ws st.fs dest st.oracle with
      | .hang _ => .hang
      | .skip fs o _ => .cont { st with fs := fs, oracle := o }
      | .abort fs o _ => .halt { st with fs := fs, oracle := o }
      | .write fs d o _ =>
        let q := resolveContent useP content { st with fs := fs, oracle := o }
        .cont { q.2 with fs := writeFileFS (mkdirsFS q.2.fs (dirname d)) d q.1 }

mutual
/-- `recursiveApplyInDir` (`part_002` lines 669-698) specialised to
`copyFunc`: apply the function to the pair, stop on `false` (or a thrown
error), and recurse over the listing of a directory source, stopping at the
first child that signals a stop. -/
def recursiveApplyInDir (ws : String) (useP : Bool) (src dest : String)
    (node : FTree) (st : EngState) : StepResult :=
  match copyFunc ws useP src node dest st with
  | .cont s =>
    match node with
    | .file _ => .cont s
    | .dir entries => walkEntries ws useP src dest entries s
  | r => r

/-- The `for (let entry of entries)` loop of `recursiveApplyInDir`. -/
def walkEntries (ws : String) (useP : Bool) (src dest : String) :
    EntryList → EngState → StepResult
  | .nil, st => .cont st
  | .cons name child rest, st =>
    match recursiveApplyInDir ws useP (pathJoin src name) (pathJoin dest name)
        child st with
    | .cont s => walkEntries ws useP src dest rest s
    | r => r
end

/-! ### Template listing (`getTemplates`) -/

/-- The hidden-entry test `/^\./.exec(item)` of `getTemplates`: does the
name start with a dot? -/
def startsWithDot (s : String) : Bool :=
  match s.data with
  | '.' :: _ => true
  | _ => false

/-- A `readdirSync` entry of the templates root together with the kind
`statSync` reports for it. -/
structure DirEntry where
  name : String
  isDir : Bool
  deriving DecidableEq

/-- `getTemplates` (`part_002` lines 72-89): map each entry of the templates
root to itself unless its name starts with a dot, then drop the `null`s.
In the source the kind test reads
`fs.statSync(path.join(templateDir, item)).isDirectory ? item : null`, where
`isDirectory` is a method reference (no call parentheses) and hence always
truthy, so the conditional keeps every non-hidden entry regardless of its
kind. -/
def getTemplates (entries : List DirEntry) : List String :=
  (entries.map (fun item =>
      if !(startsWithDot item.name) then some item.name else none)).filterMap id

/-- The listing the spec describes (`Modelled from the spec:` "enumerate
non-hidden subdirectories of template root"): only entries that are
directories and not hidden.  Stated for contrast with `getTemplates`. -/
def specListTemplates (entries : List DirEntry) : List String :=
  (entries.filter (fun item => !(startsWithDot item.name) && item.isDir)).map
    (fun item => item.name)

/-! ### Saving a template (`saveAsTemplate`) -/

/-- POSIX `path.basename` on '/'-separated paths: the last non-empty
component (trailing slashes ignored); a path with no such component is
returned unchanged. -/
def basename (p : String) : String :=
  match ((pathParts p).filter (fun s => !(s = ""))).getLast? with
  | some s => s
  | none => p

/-- `fsutils.deleteDir`: recursively remove the directory and everything
beneath it. -/
def deleteDirFS (fs : FS) (dir : String) : FS :=
  { files := fs.files.filter
      (fun e => !(strPrefixOf (dir ++ "/") e.1 || e.1 = dir)),
    dirs := fs.dirs.filter
      (fun d => !(strPrefixOf (dir ++ "/") d || d = dir)) }

/-- `fsutils.copyDir src dest` on the flat-path filesystem: create the
destination directory and copy every file and directory stored beneath the
source prefix to the corresponding rebased destination path (the recursion
over `readdirSync` listings is flattened over the stored paths). -/
def copyDirFS (fs : FS) (src dest : String) : FS :=
  { files := ((fs.files.filter (fun e => strPrefixOf (src ++ "/") e.1)).map
      (fun e => (pathJoin dest (strDrop e.1 (src.length + 1)), e.2))) ++ fs.files,
    dirs := dest :: ((fs.dirs.filter (fun d => strPrefixOf (src ++ "/") d)).map
      (fun d => pathJoin dest (strDrop d (src.length + 1)))) ++ fs.dirs }

/-- `saveAsTemplate` (`part_002` lines 350-402): prompt for a template name
(`nameAnswer`); a falsy answer — cancellation or the empty string — exits
with no effect (`if (!filename) return undefined`).  Otherwise the basename
of the answer names the template directory; if it already exists, an
overwrite confirmation (`owAnswer`) gates delete-and-copy, and the template
name is returned either way; if it does not exist the workspace is copied
directly. -/
def saveAsTemplate (workspace templatesDir : String)
    (nameAnswer owAnswer : Option String) (fs : FS) : Option String × FS :=
  match nameAnswer with
  | none => (none, fs)
  | some filename =>
    if filename = "" then (none, fs)
    else
      let template := basename filename
      let templateDir := pathJoin templatesDir template
      if existsFS fs templateDir then
        if owAnswer = some "Yes" then
          (some template, copyDirFS (deleteDirFS fs templateDir) workspace templateDir)
        else (some template, fs)
      else (some template, copyDirFS fs workspace templateDir)

/-! ## Lemmas about the placeholder resolver -/

theorem lookupD_insertD (d : Dict) (k k2 v : String) :
    lookupD (insertD d k v) k2 = if k = k2 then some v else lookupD d k2 := rfl

theorem lookupD_insertD_ne (d : Dict) (k k2 v : String) (h : ¬ k = k2) :
    lookupD (insertD d k v) k2 = lookupD d k2 := by
  simp [lookupD_insertD, h]

theorem lookupD_dictAfter_ne (d : Dict) (key k : String) (a : Option String)
    (h : ¬ key = k) : lookupD (dictAfter d key a) k = lookupD d k := by
  cases a with
  | none => rfl
  | some v =>
    by_cases hv : v = ""
    · simp [dictAfter, hv]
    · simp [dictAfter, hv, lookupD_insertD_ne d key k v h]

theorem dictAfter_some_truthy (d : Dict) (key v : String) (hv : ¬ v = "") :
    truthy (lookupD (dictAfter d key (some v)) key) = true := by
  simp [dictAfter, hv, lookupD_insertD, truthy]

/-- Unfolding equation: the scan step for a match whose key is truthy. -/
theorem scanPass_cons_truthy (tok key : String) (ms : List (String × String))
    (d : Dict) (o : List (Option String))
    (htk : truthy (lookupD d key) = true) :
    scanPass ((tok, key) :: ms) d o = scanPass ms d o := by
  simp only [scanPass, if_pos htk]

/-- Unfolding equation: the scan step for a match whose key is falsy issues
a prompt. -/
theorem scanPass_cons_falsy (tok key : String) (ms : List (String × String))
    (d : Dict) (o : List (Option String))
    (htk : ¬ truthy (lookupD d key) = true) :
    scanPass ((tok, key) :: ms) d o =
      ⟨(scanPass ms (dictAfter d key (askUser o).1) ((askUser o).2)).dict,
       (scanPass ms (dictAfter d key (askUser o).1) ((askUser o).2)).oracle,
       (key, (askUser o).1) ::
         (scanPass ms (dictAfter d key (askUser o).1) ((askUser o).2)).trace⟩ := by
  simp only [scanPass, if_neg htk]

/-- Projection facts for `resolvePlaceholders`. -/
theorem resolvePlaceholders_dict (s : String) (d : Dict) (o : List (Option String)) :
    (resolvePlaceholders s d o).dict = (scanPass (findMatches s) d o).dict := rfl

theorem resolvePlaceholders_oracle (s : String) (d : Dict) (o : List (Option String)) :
    (resolvePlaceholders s d o).oracle = (scanPass (findMatches s) d o).oracle := rfl

theorem resolvePlaceholders_trace (s : String) (d : Dict) (o : List (Option String)) :
    (resolvePlaceholders s d o).trace = (scanPass (findMatches s) d o).trace := rfl

/-- A key with a truthy value is never prompted for by the scanning pass,
and its value stays truthy. -/
theorem scanPass_truthy_stable (ms : List (String × String)) :
    ∀ d o k, truthy (lookupD d k) = true →
      truthy (lookupD (scanPass ms d o).dict k) = true ∧
      ∀ e ∈ (scanPass ms d o).trace, ¬ e.1 = k := by
  induction ms with
  | nil =>
    intro d o k h
    exact ⟨h, fun e he => absurd he (List.not_mem_nil _)⟩
  | cons m ms ih =>
    intro d o k h
    obtain ⟨tok, key⟩ := m
    by_cases htk : truthy (lookupD d key) = true
    · rw [scanPass_cons_truthy tok key ms d o htk]
      exact ih d o k h
    · have hkk : ¬ key = k := fun he => htk (he ▸ h)
      rw [scanPass_cons_falsy tok key ms d o htk]
      have hd2 : truthy (lookupD (dictAfter d key (askUser o).1) k) = true := by
        rw [lookupD_dictAfter_ne d key k _ hkk]; exact h
      obtain ⟨ih1, ih2⟩ := ih (dictAfter d key (askUser o).1) ((askUser o).2) k hd2
      refine ⟨ih1, fun e he => ?_⟩
      rcases List.mem_cons.mp he with he | he
      · rw [he]; exact hkk
      · exact ih2 e he

/-- A key whose prompt was answered with a non-empty value has a truthy
value in the dictionary the scanning pass returns. -/
theorem scanPass_answered_truthy (ms : List (String × String)) :
    ∀ d o k v, ¬ v = "" → (k, some v) ∈ (scanPass ms d o).trace →
      truthy (lookupD (scanPass ms d o).dict k) = true := by
  induction ms with
  | nil =>
    intro d o k v _ hm
    exact absurd hm (List.not_mem_nil _)
  | cons m ms ih =>
    intro d o k v hv hm
    obtain ⟨tok, key⟩ := m
    by_cases htk : truthy (lookupD d key) = true
    · rw [scanPass_cons_truthy tok key ms d o htk] at hm ⊢
      exact ih d o k v hv hm
    · rw [scanPass_cons_falsy tok key ms d o htk] at hm ⊢
      rcases List.mem_cons.mp hm with hm | hm
      · have h1 : k = key := by injection hm
        have h2 : some v = (askUser o).1 := (Prod.mk.injEq .. ▸ hm).2
        subst h1
        rw [← h2]
        exact (scanPass_truthy_stable ms (dictAfter d k (some v)) ((askUser o).2) k
          (dictAfter_some_truthy d k v hv)).1
      · exact ih _ ((askUser o).2) k v hv hm

/-- Within one scanning pass, after a prompt for `k` is answered with a
non-empty value, no later prompt concerns `k`. -/
theorem scanPass_no_reprompt (ms : List (String × String)) :
    ∀ d o t1 k v t2, (scanPass ms d o).trace = t1 ++ (k, some v) :: t2 →
      ¬ v = "" → ∀ e ∈ t2, ¬ e.1 = k := by
  induction ms with
  | nil =>
    intro d o t1 k v t2 h _
    have h2 : ([] : List (String × Option String)) = t1 ++ (k, some v) :: t2 := h
    simp at h2
  | cons m ms ih =>
    intro d o t1 k v t2 h hv
    obtain ⟨tok, key⟩ := m
    by_cases htk : truthy (lookupD d key) = true
    · rw [scanPass_cons_truthy tok key ms d o htk] at h
      exact ih d o t1 k v t2 h hv
    · rw [scanPass_cons_falsy tok key ms d o htk] at h
      cases t1 with
      | nil =>
        simp only [List.nil_append] at h
        have hhd : ((key, (askUser o).1) : String × Option String) = (k, some v) := by
          injection h
        have htr : (scanPass ms (dictAfter d key (askUser o).1)
            ((askUser o).2)).trace = t2 := by
          injection h
        have hkey : key = k := (Prod.mk.injEq .. ▸ hhd).1
        have hans : (askUser o).1 = some v := (Prod.mk.injEq .. ▸ hhd).2
        subst hkey
        rw [hans] at htr
        intro e he
        exact (scanPass_truthy_stable ms (dictAfter d key (some v))
          ((askUser o).2) key (dictAfter_some_truthy d key v hv)).2 e
          (by rw [htr]; exact he)
      | cons h1e t1 =>
        have htl : (scanPass ms (dictAfter d key (askUser o).1)
            ((askUser o).2)).trace = t1 ++ (k, some v) :: t2 := by
          injection h
        exact ih _ ((askUser o).2) t1 k v t2 htl hv

/-- A key that is a match key and has a falsy value when the scan starts is
prompted for. -/
theorem scanPass_falsy_prompts (ms : List (String × String)) :
    ∀ d o k, truthy (lookupD d k) = false → k ∈ ms.map Prod.snd →
      ∃ a, (k, a) ∈ (scanPass ms d o).trace := by
  induction ms with
  | nil => intro d o k _ hk; simp at hk
  | cons m ms ih =>
    intro d o k hf hk
    obtain ⟨tok, key⟩ := m
    by_cases hkey : key = k
    · subst hkey
      have htk : ¬ truthy (lookupD d key) = true := by rw [hf]; exact Bool.false_ne_true
      refine ⟨(askUser o).1, ?_⟩
      rw [scanPass_cons_falsy tok key ms d o htk]
      exact List.mem_cons_self _ _
    · have hk2 : k ∈ ms.map Prod.snd := by
        simp only [List.map_cons, List.mem_cons] at hk
        rcases hk with hk | hk
        · exact absurd hk.symm hkey
        · exact hk
      by_cases htk : truthy (lookupD d key) = true
      · rw [scanPass_cons_truthy tok key ms d o htk]
        exact ih d o k hf hk2
      · have hf2 : truthy (lookupD (dictAfter d key (askUser o).1) k) = false := by
          rw [lookupD_dictAfter_ne d key k _ hkey]; exact hf
        obtain ⟨a, ha⟩ := ih _ ((askUser o).2) k hf2 hk2
        refine ⟨a, ?_⟩
        rw [scanPass_cons_falsy tok key ms d o htk]
        exact List.mem_cons_of_mem _ ha

-- placeholder matcher
example : findMatches "hello" = [] := by decide
example : findMatches "#\x7bname\x7d" = [("#\x7bname\x7d", "name")] := by decide
example : findMatches "a#\x7bk_1\x7db #\x7bk_1\x7d" =
  [("#\x7bk_1\x7d", "k_1"), ("#\x7bk_1\x7d", "k_1")] := by decide
example : findMatches "#\x7b\x7d #\x7ba b\x7d" = [] := by decide
example : substitute "x #\x7bn\x7d y" [("n", "World")] = "x World y" := by decide
example : substitute "x #\x7bn\x7d y" [("n", "")] = "x #\x7bn\x7d y" := by decide
example : (resolvePlaceholders "hi #\x7bn\x7d" [] [some "W"]).out = "hi W" := by decide
example : (resolvePlaceholders "hi #\x7bn\x7d" [] [some "W"]).trace = [("n", some "W")] := by decide
example : (resolvePlaceholders "hi #\x7bn\x7d" [("n", "")] [none]).out = "hi #\x7bn\x7d" := by decide
-- git skip
example : gitSkip "/tpl/.git" = true := by decide
example : gitSkip "/tpl/.git/objects/ab" = true := by decide
example : gitSkip "/tpl/agit" = true := by decide
example : gitSkip "/tpl/xGIT/f" = true := by decide
example : gitSkip "/tpl/git" = false := by decide
example : gitSkip "/tpl/agitx" = false := by decide
example : gitSkip "/tpl/src/main.c" = false := by decide
-- getTemplates bug
example : getTemplates [⟨"notes.txt", false⟩, ⟨".hidden", true⟩, ⟨"proj", true⟩] =
  ["notes.txt", "proj"] := by decide
example : specListTemplates [⟨"notes.txt", false⟩, ⟨".hidden", true⟩, ⟨"proj", true⟩] =
  ["proj"] := by decide
-- paths
example : relativePath "/ws" "/ws/a/b" = "a/b" := by decide
example : dirname "/ws/a/b" = "/ws/a" := by decide
example : ancestorChain "/ws/a/b" = ["/ws", "/ws/a", "/ws/a/b"] := by decide
example : basename " " = " " := by decide
example : basename "/a/b" = "b" := by decide
-- collision loop: skip keeps fs
example :
    collisionLoop "/ws" ⟨[("/ws/R.md", "old")], []⟩ "/ws/R.md" [some "Skip", some "x"] =
      .skip ⟨[("/ws/R.md", "old")], []⟩ [some "x"] [.pick "R.md"] := by decide
example :
    collisionLoop "/ws" ⟨[("/ws/R.md", "old")], []⟩ "/ws/R.md" [some "Abort"] =
      .abort ⟨[("/ws/R.md", "old")], []⟩ [] [.pick "R.md"] := by decide
example :
    collisionLoop "/ws" ⟨[("/ws/R.md", "old")], []⟩ "/ws/R.md" [some "Overwrite"] =
      .write ⟨[], []⟩ "/ws/R.md" [] [.pick "R.md"] := by decide
-- dir over file: copyFunc throws
example :
    copyFunc "/ws" false "/t/s" (.dir .nil) "/ws/s" ⟨⟨[("/ws/s", "x")], []⟩, [], []⟩ =
      .err "Failed to create directory /ws/s: file with same name exists."
        ⟨⟨[("/ws/s", "x")], []⟩, [], []⟩ := by decide
-- full tiny walk: template with README + src dir into empty destination
example :
    recursiveApplyInDir "/ws" true "/t/demo" "/ws"
      (.dir (.cons "README.md" (.file "Hello #\x7bname\x7d")
        (.cons "src" (.dir .nil) .nil)))
      ⟨⟨[], ["/ws"]⟩, [], [some "World"]⟩ =
      .cont ⟨⟨[("/ws/README.md", "Hello World")], ["/ws/src", "/ws", "/ws"]⟩,
        [("name", "World")], []⟩ := by decide

/-! ## Run-level lemmas: threading the dictionary across calls -/

/-- Unfolding equation for a run step. -/
theorem resolveRun_cons (s : String) (rest : List String) (d : Dict)
    (o : List (Option String)) :
    resolveRun (s :: rest) d o =
      ((resolveRun rest (resolvePlaceholders s d o).dict
          (resolvePlaceholders s d o).oracle).1,
       (resolveRun rest (resolvePlaceholders s d o).dict
          (resolvePlaceholders s d o).oracle).2.1,
       (resolvePlaceholders s d o).trace ++
         (resolveRun rest (resolvePlaceholders s d o).dict
          (resolvePlaceholders s d o).oracle).2.2) := rfl

/-- Across a whole run, a key with a truthy value is never prompted for and
stays truthy. -/
theorem resolveRun_truthy_stable (l : List String) :
    ∀ d o k, truthy (lookupD d k) = true →
      truthy (lookupD (resolveRun l d o).1 k) = true ∧
      ∀ e ∈ (resolveRun l d o).2.2, ¬ e.1 = k := by
  induction l with
  | nil =>
    intro d o k h
    exact ⟨h, fun e he => absurd he (List.not_mem_nil _)⟩
  | cons s rest ih =>
    intro d o k h
    have hp := scanPass_truthy_stable (findMatches s) d o k h
    have hr := ih (resolvePlaceholders s d o).dict (resolvePlaceholders s d o).oracle
      k (by rw [resolvePlaceholders_dict]; exact hp.1)
    rw [resolveRun_cons]
    refine ⟨hr.1, fun e he => ?_⟩
    rcases List.mem_append.mp he with he | he
    · rw [resolvePlaceholders_trace] at he
      exact hp.2 e he
    · exact hr.2 e he

/-- Across a whole run, once a prompt for `k` is answered with a non-empty
value, no later prompt concerns `k`. -/
theorem resolveRun_no_reprompt (l : List String) :
    ∀ d o t1 k v t2, (resolveRun l d o).2.2 = t1 ++ (k, some v) :: t2 →
      ¬ v = "" → ∀ e ∈ t2, ¬ e.1 = k := by
  induction l with
  | nil =>
    intro d o t1 k v t2 h _
    have h2 : ([] : List (String × Option String)) = t1 ++ (k, some v) :: t2 := h
    simp at h2
  | cons s rest ih =>
    intro d o t1 k v t2 h hv
    rw [resolveRun_cons] at h
    rcases List.append_eq_append_iff.mp h with ⟨a2, ha1, ha2⟩ | ⟨c2, hc1, hc2⟩
    · exact ih _ _ a2 k v t2 ha2 hv
    · cases c2 with
      | nil =>
        simp only [List.nil_append] at hc2
        exact ih _ _ [] k v t2 hc2.symm hv
      | cons hd c2 =>
        have hh : hd = (k, some v) := by injection hc2 with h1 _; exact h1.symm
        have ht2 : t2 = c2 ++ (resolveRun rest (resolvePlaceholders s d o).dict
            (resolvePlaceholders s d o).oracle).2.2 := by
          injection hc2
        have hmem : (k, some v) ∈ (resolvePlaceholders s d o).trace := by
          rw [hc1, hh]
          exact List.mem_append.mpr (Or.inr (List.mem_cons_self _ _))
        have htruthy : truthy (lookupD (resolvePlaceholders s d o).dict k) = true := by
          rw [resolvePlaceholders_dict]
          exact scanPass_answered_truthy (findMatches s) d o k v hv
            (by rw [← resolvePlaceholders_trace]; exact hmem)
        intro e he
        rw [ht2] at he
        rcases List.mem_append.mp he with he | he
        · have hsplit : (scanPass (findMatches s) d o).trace =
              t1 ++ (k, some v) :: c2 := by
            rw [← resolvePlaceholders_trace, hc1, hh]
          exact scanPass_no_reprompt (findMatches s) d o t1 k v c2 hsplit hv e he
        · exact (resolveRun_truthy_stable rest
            (resolvePlaceholders s d o).dict (resolvePlaceholders s d o).oracle
            k htruthy).2 e he

/-! ## Claims about the placeholder resolver -/

/-- C5: within a single instantiation run, a placeholder key that has been
resolved — seeded with a truthy value in the dictionary, or interactively
answered with a non-empty value — is never prompted for again by any later
occurrence, in the same content, other files, or filename resolution: the
cached value is reused, so each resolved key is asked for at most once per
run.  The run is `resolveRun`, a sequence of `resolvePlaceholders` calls
threading the dictionary and answer stream as `createFromTemplate` does. -/
theorem c5_resolved_key_asked_at_most_once (l : List String) (d : Dict)
    (o : List (Option String)) (k : String) :
    (truthy (lookupD d k) = true → ∀ e ∈ (resolveRun l d o).2.2, ¬ e.1 = k) ∧
    (∀ t1 v t2, (resolveRun l d o).2.2 = t1 ++ (k, some v) :: t2 → ¬ v = "" →
      ∀ e ∈ t2, ¬ e.1 = k) :=
  ⟨fun h => (resolveRun_truthy_stable l d o k h).2,
   fun t1 v t2 h hv => resolveRun_no_reprompt l d o t1 k v t2 h hv⟩

-- Witness for C5: a run over two files both containing `#{n}`, with a seeded
-- key `s`; the single prompt for `n` (answered `World`) is not repeated.
theorem c5_resolved_key_asked_at_most_once_witness :
    (∀ e ∈ (resolveRun ["#\x7bn\x7d", "#\x7bn\x7d"] [("s", "x")]
        [some "World"]).2.2, ¬ e.1 = "s") ∧
    (∀ e ∈ ([] : List (String × Option String)), ¬ e.1 = "n") :=
  ⟨(c5_resolved_key_asked_at_most_once ["#\x7bn\x7d", "#\x7bn\x7d"]
      [("s", "x")] [some "World"] "s").1 (by decide),
   (c5_resolved_key_asked_at_most_once ["#\x7bn\x7d", "#\x7bn\x7d"]
      [("s", "x")] [some "World"] "n").2 [] "World" [] (by decide) (by decide)⟩

/-- C7: on any text input in which the placeholder pattern has no match,
`resolvePlaceholders` returns the input unchanged (byte-identical),
whatever the dictionary contains: with zero matches the scanned match list
is empty and the substitution pass is not entered. -/
theorem c7_no_match_identity (s : String) (d : Dict) (o : List (Option String))
    (h : findMatches s = []) : (resolvePlaceholders s d o).out = s := by
  simp [resolvePlaceholders, h]

-- Witness for C7: match-free content with a populated dictionary.
theorem c7_no_match_identity_witness :
    (resolvePlaceholders "plain text, no placeholders"
      [("n", "World")] [some "x"]).out = "plain text, no placeholders" :=
  c7_no_match_identity "plain text, no placeholders" [("n", "World")]
    [some "x"] (by decide)

/-- C9: a placeholder key whose dictionary entry is the empty string is
treated as unresolved: when the key occurs among the matches of the input,
the scanning pass prompts for it even though the key is present in the
dictionary, and the substitution callback never emits an empty-string value —
with a falsy value it returns the original matched token verbatim. -/
theorem c9_empty_value_prompts_and_never_substituted (s : String) (d : Dict)
    (o : List (Option String)) (k : String) (h : lookupD d k = some "") :
    (k ∈ (findMatches s).map Prod.snd →
      ∃ a, (k, a) ∈ (resolvePlaceholders s d o).trace) ∧
    (∀ tok, replaceFn d tok k = tok) := by
  constructor
  · intro hk
    rw [resolvePlaceholders_trace]
    exact scanPass_falsy_prompts (findMatches s) d o k (by simp [truthy, h]) hk
  · intro tok
    simp [replaceFn, h]

-- Witness for C9: dictionary maps `n` to `""`; content `#{n}` still prompts,
-- and the substitution callback returns the token itself.
theorem c9_empty_value_prompts_and_never_substituted_witness :
    (∃ a, ("n", a) ∈ (resolvePlaceholders "#\x7bn\x7d" [("n", "")]
      [some "World"]).trace) ∧
    replaceFn [("n", "")] "#\x7bn\x7d" "n" = "#\x7bn\x7d" :=
  ⟨(c9_empty_value_prompts_and_never_substituted "#\x7bn\x7d" [("n", "")]
      [some "World"] "n" (by decide)).1 (by decide),
   (c9_empty_value_prompts_and_never_substituted "#\x7bn\x7d" [("n", "")]
      [some "World"] "n" (by decide)).2 "#\x7bn\x7d"⟩

/-! ## Claims about listing and saving templates -/

/-- C1 (code bug evidence): `getTemplates` keeps every non-hidden entry of
the templates root, including plain files, because the source tests the
method reference `isDirectory` instead of calling `isDirectory()`; only
dot-prefixed names are filtered.  On a root holding a plain file
`notes.txt`, a hidden directory `.hidden` and a directory `proj`, the code
returns `["notes.txt", "proj"]`, whereas the spec listing ("enumerate
non-hidden subdirectories") returns `["proj"]`. -/
theorem c1_gettemplates_keeps_nondirectories :
    getTemplates [⟨"notes.txt", false⟩, ⟨".hidden", true⟩, ⟨"proj", true⟩] =
      ["notes.txt", "proj"] ∧
    specListTemplates [⟨"notes.txt", false⟩, ⟨".hidden", true⟩, ⟨"proj", true⟩] =
      ["proj"] := by
  constructor <;> rfl

/-- C8 counterexample: a whitespace-only template name is not rejected by
`saveAsTemplate` — `if (!filename)` only catches cancellation and the empty
string, and `" "` is truthy — so the save proceeds: the template `" "` is
returned and the workspace is copied beneath the templates root. -/
theorem c8_whitespace_name_not_rejected :
    (saveAsTemplate "/ws" "/tpl" (some " ") none
      ⟨[("/ws/a.txt", "data")], ["/ws"]⟩).1 = some " " ∧
    ("/tpl/ /a.txt", "data") ∈
      (saveAsTemplate "/ws" "/tpl" (some " ") none
        ⟨[("/ws/a.txt", "data")], ["/ws"]⟩).2.files := by
  constructor <;> decide

/-- C8 (amended): only a falsy template name — a cancelled prompt or the
empty string — is rejected as a user cancellation by `saveAsTemplate`: no
template directory is created and no copy is performed; a whitespace-only
name is accepted and saved under that name. -/
theorem c8_empty_name_rejected (ws tdir : String) (ow : Option String)
    (fs : FS) :
    saveAsTemplate ws tdir none ow fs = (none, fs) ∧
    saveAsTemplate ws tdir (some "") ow fs = (none, fs) := by
  constructor
  · rfl
  · simp [saveAsTemplate]

/-! ## Lemmas about the version-control skip test -/

/-- The end-or-slash tail condition survives appending a '/'-rooted suffix. -/
theorem tailSlash_extend (rest ds : List Char)
    (h : (rest.isEmpty || rest.head? = some '/') = true) :
    ((rest ++ '/' :: ds).isEmpty || (rest ++ '/' :: ds).head? = some '/') = true := by
  cases rest with
  | nil => simp
  | cons r rs => simpa using h

/-- A match of the skip pattern survives appending a '/'-rooted suffix
(a match via `$` turns into a match via `\/`). -/
theorem gitMatchAt_extend (l ds : List Char) (h : gitMatchAt l = true) :
    gitMatchAt (l ++ '/' :: ds) = true := by
  match l with
  | [] => simp [gitMatchAt] at h
  | [c0] => simp [gitMatchAt] at h
  | [c0, c1] => simp [gitMatchAt] at h
  | [c0, c1, c2] => simp [gitMatchAt] at h
  | [c0, c1, c2, c3] => simp [gitMatchAt] at h
  | c0 :: c1 :: c2 :: c3 :: c4 :: rest =>
    have e : (c0 :: c1 :: c2 :: c3 :: c4 :: rest) ++ '/' :: ds =
        c0 :: c1 :: c2 :: c3 :: c4 :: (rest ++ '/' :: ds) := rfl
    rw [e]
    simp only [gitMatchAt, Bool.and_eq_true] at h ⊢
    exact ⟨h.1, tailSlash_extend rest ds h.2⟩

/-- The skip test survives appending a '/'-rooted suffix. -/
theorem gitSkipAux_append_right (cs ds : List Char) (h : gitSkipAux cs = true) :
    gitSkipAux (cs ++ '/' :: ds) = true := by
  induction cs with
  | nil => simp [gitSkipAux] at h
  | cons c rest ih =>
    simp only [gitSkipAux, Bool.or_eq_true] at h
    have e : (c :: rest) ++ '/' :: ds = c :: (rest ++ '/' :: ds) := rfl
    rw [e]
    simp only [gitSkipAux, Bool.or_eq_true]
    rcases h with h | h
    · exact Or.inl (by
        have := gitMatchAt_extend (c :: rest) ds h
        rw [e] at this
        exact this)
    · exact Or.inr (ih h)

/-- The skip test survives prepending anything. -/
theorem gitSkipAux_append_left (l r : List Char) (h : gitSkipAux r = true) :
    gitSkipAux (l ++ r) = true := by
  induction l with
  | nil => simpa using h
  | cons c l ih =>
    have e : (c :: l) ++ r = c :: (l ++ r) := rfl
    rw [e]
    simp only [gitSkipAux, Bool.or_eq_true]
    exact Or.inr ih

/-- A path that the skip test matches still matches after descending into a
child entry (`path.join(src, entry)`). -/
theorem gitSkip_pathJoin (s t : String) (h : gitSkip s = true) :
    gitSkip (pathJoin s t) = true := by
  unfold gitSkip pathJoin
  rw [String.data_append, String.data_append]
  have e : ("/" : String).data ++ t.data = '/' :: t.data := rfl
  rw [List.append_assoc, e]
  exact gitSkipAux_append_right s.data t.data h

/-- Any path containing a '/'-preceded component of the shape `.git` —
or more generally any four-character component ending in `git`
case-insensitively, first character arbitrary (regex dot) — matches the
skip test. -/
theorem gitSkip_component (a b : String) (x g i t : Char)
    (hx : regexDotChar x = true) (hg : g = 'g' ∨ g = 'G')
    (hi : i = 'i' ∨ i = 'I') (ht : t = 't' ∨ t = 'T')
    (hb : b = "" ∨ ∃ b2, b = "/" ++ b2) :
    gitSkip (a ++ String.mk ['/', x, g, i, t] ++ b) = true := by
  unfold gitSkip
  rw [String.data_append, String.data_append]
  have hmk : (String.mk ['/', x, g, i, t]).data = ['/', x, g, i, t] := rfl
  rw [hmk, List.append_assoc]
  apply gitSkipAux_append_left
  have e : (['/', x, g, i, t] : List Char) ++ b.data =
      '/' :: x :: g :: i :: t :: b.data := rfl
  rw [e]
  have htail : (b.data.isEmpty || b.data.head? = some '/') = true := by
    rcases hb with hb | ⟨b2, hb⟩
    · rw [hb]; rfl
    · rw [hb, String.data_append]
      rfl
  have hm : gitMatchAt ('/' :: x :: g :: i :: t :: b.data) = true := by
    simp only [gitMatchAt, Bool.and_eq_true, Bool.or_eq_true, decide_eq_true_eq]
    exact ⟨⟨⟨⟨⟨trivial, hx⟩, hg⟩, hi⟩, ht⟩, by
      simpa only [Bool.or_eq_true, decide_eq_true_eq] using htail⟩
  simp only [gitSkipAux, Bool.or_eq_true]
  exact Or.inl hm

/-- Name resolution leaves the destination filesystem untouched. -/
theorem resolveDestName_fs (useP : Bool) (dest : String) (st : EngState) :
    ((resolveDestName useP dest st).2).fs = st.fs := by
  cases useP <;> rfl

/-- `copyFunc` on a version-control source path only runs name resolution:
it continues the walk with the filesystem unchanged. -/
theorem copyFunc_gitSkip (ws : String) (useP : Bool) (src : String)
    (node : FTree) (dest : String) (st : EngState) (h : gitSkip src = true) :
    copyFunc ws useP src node dest st = .cont (resolveDestName useP dest st).2 := by
  unfold copyFunc
  simp [h]

mutual
/-- The whole subtree rooted at a source path that the skip test matches is
walked without touching the destination filesystem. -/
theorem walk_gitSkip (ws : String) (useP : Bool) (src dest : String)
    (node : FTree) (st : EngState) (h : gitSkip src = true) :
    ∃ st2, recursiveApplyInDir ws useP src dest node st = .cont st2 ∧
      st2.fs = st.fs := by
  unfold recursiveApplyInDir
  rw [copyFunc_gitSkip ws useP src node dest st h]
  cases node with
  | file c =>
    exact ⟨(resolveDestName useP dest st).2, rfl, resolveDestName_fs useP dest st⟩
  | dir es =>
    obtain ⟨st2, h1, h2⟩ := walkEntries_gitSkip ws useP src dest es
      (resolveDestName useP dest st).2 h
    exact ⟨st2, h1, by rw [h2, resolveDestName_fs useP dest st]⟩

/-- Companion of `walk_gitSkip` for directory listings. -/
theorem walkEntries_gitSkip (ws : String) (useP : Bool) (src dest : String)
    (es : EntryList) (st : EngState) (h : gitSkip src = true) :
    ∃ st2, walkEntries ws useP src dest es st = .cont st2 ∧ st2.fs = st.fs := by
  cases es with
  | nil => exact ⟨st, rfl, rfl⟩
  | cons name child rest =>
    obtain ⟨st1, h1, h2⟩ := walk_gitSkip ws useP (pathJoin src name)
      (pathJoin dest name) child st (gitSkip_pathJoin src name h)
    obtain ⟨st2, h3, h4⟩ := walkEntries_gitSkip ws useP src dest rest st1 h
    refine ⟨st2, ?_, by rw [h4, h2]⟩
    unfold walkEntries
    rw [h1]
    exact h3
end

/-! ## Claims about the version-control skip -/

/-- C2: during an instantiation walk, every entry whose source path has
`.git` as a ('/'-preceded) path component is skipped together with its whole
subtree: the walk continues and no path is created or written in the
destination filesystem while it is traversed, so nothing in the destination
originates from a `.git` directory of the template source. -/
theorem c2_dotgit_subtree_never_copied (ws : String) (useP : Bool)
    (src dest : String) (node : FTree) (st : EngState) (a b : String)
    (hb : b = "" ∨ ∃ b2, b = "/" ++ b2) (hsrc : src = a ++ "/.git" ++ b) :
    ∃ st2, recursiveApplyInDir ws useP src dest node st = .cont st2 ∧
      st2.fs = st.fs := by
  apply walk_gitSkip
  rw [hsrc]
  exact gitSkip_component a b '.' 'g' 'i' 't' (by decide) (Or.inl rfl)
    (Or.inl rfl) (Or.inl rfl) hb

-- Witness for C2: a `.git` directory with one file beneath it, walked
-- against an empty destination, leaves the filesystem untouched.
theorem c2_dotgit_subtree_never_copied_witness :
    ∃ st2, recursiveApplyInDir "/ws" false "/tpl/.git" "/ws/.git"
      (.dir (.cons "config" (.file "gitdata") .nil))
      ⟨⟨[], ["/ws"]⟩, [], []⟩ = .cont st2 ∧
      st2.fs = (⟨⟨[], ["/ws"]⟩, [], []⟩ : EngState).fs :=
  c2_dotgit_subtree_never_copied "/ws" false "/tpl/.git" "/ws/.git"
    (.dir (.cons "config" (.file "gitdata") .nil))
    ⟨⟨[], ["/ws"]⟩, [], []⟩ "/tpl" "" (Or.inl rfl) rfl

/-- C10: the skip test `/\/.git($|\/)/i` has an unescaped dot, so it matches
any '/'-preceded four-character component ending in `git` case-insensitively
with an arbitrary (any-character-class) first character — `agit`, `0git`,
`xGIT`, `.GIT`, not only `.git` — and every such source entry is skipped with
its subtree: the walk continues with the destination filesystem unchanged. -/
theorem c10_unescaped_dot_skips_any_git_component (ws : String) (useP : Bool)
    (src dest : String) (node : FTree) (st : EngState) (a b : String)
    (x g i t : Char) (hx : regexDotChar x = true) (hg : g = 'g' ∨ g = 'G')
    (hi : i = 'i' ∨ i = 'I') (ht : t = 't' ∨ t = 'T')
    (hb : b = "" ∨ ∃ b2, b = "/" ++ b2)
    (hsrc : src = a ++ String.mk ['/', x, g, i, t] ++ b) :
    gitSkip src = true ∧
    ∃ st2, recursiveApplyInDir ws useP src dest node st = .cont st2 ∧
      st2.fs = st.fs := by
  have hskip : gitSkip src = true := by
    rw [hsrc]; exact gitSkip_component a b x g i t hx hg hi ht hb
  exact ⟨hskip, walk_gitSkip ws useP src dest node st hskip⟩

-- Witness for C10: the entry `agit` (not a `.git` directory) is skipped.
theorem c10_unescaped_dot_skips_any_git_component_witness :
    gitSkip "/tpl/agit" = true ∧
    ∃ st2, recursiveApplyInDir "/ws" false "/tpl/agit" "/ws/agit"
      (.file "payload") ⟨⟨[], ["/ws"]⟩, [], []⟩ = .cont st2 ∧
      st2.fs = (⟨⟨[], ["/ws"]⟩, [], []⟩ : EngState).fs :=
  c10_unescaped_dot_skips_any_git_component "/ws" false "/tpl/agit" "/ws/agit"
    (.file "payload") ⟨⟨[], ["/ws"]⟩, [], []⟩ "/tpl" "" 'a' 'g' 'i' 't'
    (by decide) (Or.inl rfl) (Or.inl rfl) (Or.inl rfl) (Or.inl rfl) rfl

/-! ## Lemmas about the collision loop and the walk -/

/-- Unfolding equation: the rename-only branch of the collision loop for an
existing destination that is not a plain file. -/
theorem collisionLoop_kind_mismatch (ws : String) (fs : FS) (dest : String)
    (ans : Option String) (rest : List (Option String))
    (hex : existsFS fs dest = true) (hnf : isFileFS fs dest = false) :
    collisionLoop ws fs dest (ans :: rest) =
      (collisionLoop ws fs (renameCandidate ws dest ans) rest).push
        (.ask (relativePath ws dest)) := by
  conv_lhs => unfold collisionLoop
  rw [if_neg (show ¬ existsFS fs dest = false by simp [hex]), if_pos hnf]

/-- Unfolding equation: Skip at a plain-file collision. -/
theorem collisionLoop_skip (ws : String) (fs : FS) (dest : String)
    (rest : List (Option String))
    (hex : existsFS fs dest = true) (hf : isFileFS fs dest = true) :
    collisionLoop ws fs dest (some "Skip" :: rest) =
      .skip fs rest [.pick (relativePath ws dest)] := by
  conv_lhs => unfold collisionLoop
  rw [if_neg (show ¬ existsFS fs dest = false by simp [hex]),
    if_neg (show ¬ isFileFS fs dest = false by simp [hf]),
    if_neg (show ¬ (some "Skip" : Option String) = some "Overwrite" by decide),
    if_neg (show ¬ (some "Skip" : Option String) = some "Rename" by decide),
    if_pos rfl]

/-- Unfolding equation: Abort at a plain-file collision. -/
theorem collisionLoop_abort (ws : String) (fs : FS) (dest : String)
    (rest : List (Option String))
    (hex : existsFS fs dest = true) (hf : isFileFS fs dest = true) :
    collisionLoop ws fs dest (some "Abort" :: rest) =
      .abort fs rest [.pick (relativePath ws dest)] := by
  conv_lhs => unfold collisionLoop
  rw [if_neg (show ¬ existsFS fs dest = false by simp [hex]),
    if_neg (show ¬ isFileFS fs dest = false by simp [hf]),
    if_neg (show ¬ (some "Abort" : Option String) = some "Overwrite" by decide),
    if_neg (show ¬ (some "Abort" : Option String) = some "Rename" by decide),
    if_neg (show ¬ (some "Abort" : Option String) = some "Skip" by decide)]

/-- Unfolding equation of `copyFunc` on a file node without placeholder
substitution: only the git test and the collision loop remain. -/
theorem copyFunc_file_eq (ws src content dest : String) (st : EngState) :
    copyFunc ws false src (.file content) dest st =
      (if gitSkip src then .cont st
       else
         match collisionLoop ws st.fs dest st.oracle with
         | .hang _ => .hang
         | .skip fs o _ => .cont { st with fs := fs, oracle := o }
         | .abort fs o _ => .halt { st with fs := fs, oracle := o }
         | .write fs d o _ =>
           let q := resolveContent false content { st with fs := fs, oracle := o }
           .cont { q.2 with fs := writeFileFS (mkdirsFS q.2.fs (dirname d)) d q.1 }) := by
  rfl

/-- Unfolding equation of `copyFunc` on a directory node without placeholder
substitution. -/
theorem copyFunc_dir_eq (ws src dest : String) (es : EntryList) (st : EngState) :
    copyFunc ws false src (.dir es) dest st =
      (if gitSkip src then .cont st
       else if existsFS st.fs dest = false then .cont { st with fs := mkdirFS st.fs dest }
       else if isDirFS st.fs dest = false then
         .err ("Failed to create directory " ++ dest ++
           ": file with same name exists.") st
       else .cont st) := by
  rfl

/-- `copyFunc` without placeholder substitution, for a plain-file collision
answered with Skip: the entry is suppressed, the filesystem untouched, the
walk told to continue. -/
theorem copyFunc_skip (ws src content dest : String) (st : EngState)
    (o2 : List (Option String)) (hg : gitSkip src = false)
    (hex : existsFS st.fs dest = true) (hf : isFileFS st.fs dest = true)
    (ho : st.oracle = some "Skip" :: o2) :
    copyFunc ws false src (.file content) dest st = .cont { st with oracle := o2 } := by
  rw [copyFunc_file_eq, hg, ho, collisionLoop_skip ws st.fs dest o2 hex hf]
  rfl

/-- `copyFunc` without placeholder substitution, for a plain-file collision
answered with Abort: the walk is told to stop, the filesystem untouched. -/
theorem copyFunc_abort (ws src content dest : String) (st : EngState)
    (o2 : List (Option String)) (hg : gitSkip src = false)
    (hex : existsFS st.fs dest = true) (hf : isFileFS st.fs dest = true)
    (ho : st.oracle = some "Abort" :: o2) :
    copyFunc ws false src (.file content) dest st = .halt { st with oracle := o2 } := by
  rw [copyFunc_file_eq, hg, ho, collisionLoop_abort ws st.fs dest o2 hex hf]
  rfl

/-- Unfolding equation of the entry loop on a cons listing. -/
theorem walkEntries_cons (ws : String) (useP : Bool) (src dest name : String)
    (child : FTree) (rest : EntryList) (st : EngState) :
    walkEntries ws useP src dest (.cons name child rest) st =
      (match recursiveApplyInDir ws useP (pathJoin src name) (pathJoin dest name)
          child st with
       | .cont s => walkEntries ws useP src dest rest s
       | r => r) := by
  rfl

/-- Unfolding equation of the walk on a directory node. -/
theorem recursiveApplyInDir_dir (ws : String) (useP : Bool) (src dest : String)
    (es : EntryList) (st : EngState) :
    recursiveApplyInDir ws useP src dest (.dir es) st =
      (match copyFunc ws useP src (.dir es) dest st with
       | .cont s => walkEntries ws useP src dest es s
       | r => r) := by
  rfl

/-- The entry loop distributes over listing concatenation: the second block
runs only if the first one signalled continue. -/
theorem walkEntries_append (ws : String) (useP : Bool) (src dest : String)
    (p q : EntryList) (st : EngState) :
    walkEntries ws useP src dest (appendEL p q) st =
      match walkEntries ws useP src dest p st with
      | .cont s => walkEntries ws useP src dest q s
      | r => r := by
  match p with
  | .nil => rfl
  | .cons name child rest =>
    have e0 : appendEL (.cons name child rest) q = .cons name child (appendEL rest q) := rfl
    rw [e0, walkEntries_cons, walkEntries_cons ws useP src dest name child rest st]
    cases recursiveApplyInDir ws useP (pathJoin src name) (pathJoin dest name)
        child st with
    | cont s => exact walkEntries_append ws useP src dest rest q s
    | halt s => rfl
    | err m s => rfl
    | hang => rfl

/-! ## Claims about collision handling -/

/-- C3 counterexample: for a copy-plan entry whose source is a directory and
whose destination exists as a plain file — a kind-mismatch collision the
claim says is handled by the rename prompt loop — `copyFunc` instead throws
an error, without consuming any user answer. -/
theorem c3_dir_source_over_file_throws :
    copyFunc "/ws" false "/tpl/sub" (.dir .nil) "/ws/sub"
      ⟨⟨[("/ws/sub", "x")], []⟩, [], [some "newname"]⟩ =
      .err "Failed to create directory /ws/sub: file with same name exists."
        ⟨⟨[("/ws/sub", "x")], []⟩, [], [some "newname"]⟩ := by
  decide

/-- C3 (amended): only for a copy-plan entry whose source is a *file* and
whose destination exists but is not a plain file does the engine run the
rename prompt loop: the prompt is pre-filled with the destination-root
relative path, a falsy answer retries the same prompt with the same
destination, a non-absolute answer is rooted at the destination root, and
the loop re-checks the new candidate — this branch has no error outcome and
no cancel-exit (the result is always the re-entered loop).  For a directory
source whose destination exists as a non-directory the engine instead
throws the `Failed to create directory` error. -/
theorem c3_file_source_kind_mismatch_rename_loop (ws : String) :
    (∀ fs dest rest, existsFS fs dest = true → isFileFS fs dest = false →
      isAbsolutePath dest = true →
      collisionLoop ws fs dest (none :: rest) =
        (collisionLoop ws fs dest rest).push (.ask (relativePath ws dest)) ∧
      collisionLoop ws fs dest (some "" :: rest) =
        (collisionLoop ws fs dest rest).push (.ask (relativePath ws dest))) ∧
    (∀ fs dest rest v, existsFS fs dest = true → isFileFS fs dest = false →
      ¬ v = "" → isAbsolutePath v = false →
      collisionLoop ws fs dest (some v :: rest) =
        (collisionLoop ws fs (pathJoin ws v) rest).push
          (.ask (relativePath ws dest))) ∧
    (∀ fsx dest src es d o, gitSkip src = false → existsFS fsx dest = true →
      isDirFS fsx dest = false →
      copyFunc ws false src (.dir es) dest ⟨fsx, d, o⟩ =
        .err ("Failed to create directory " ++ dest ++
          ": file with same name exists.") ⟨fsx, d, o⟩) := by
  refine ⟨?_, ?_, ?_⟩
  · intro fs dest rest hex hnf habs
    have hc1 : renameCandidate ws dest none = dest := by
      simp [renameCandidate, habs]
    have hc2 : renameCandidate ws dest (some "") = dest := by
      simp [renameCandidate, habs]
    constructor
    · rw [collisionLoop_kind_mismatch ws fs dest none rest hex hnf, hc1]
    · rw [collisionLoop_kind_mismatch ws fs dest (some "") rest hex hnf, hc2]
  · intro fs dest rest v hex hnf hv habs
    have hc : renameCandidate ws dest (some v) = pathJoin ws v := by
      simp [renameCandidate, hv, habs]
    rw [collisionLoop_kind_mismatch ws fs dest (some v) rest hex hnf, hc]
  · intro fsx dest src es d o hg hex hnd
    rw [copyFunc_dir_eq, hg,
      if_neg (show ¬ existsFS (⟨fsx, d, o⟩ : EngState).fs dest = false by
        simp [show existsFS fsx dest = true from hex]),
      if_pos (show isDirFS (⟨fsx, d, o⟩ : EngState).fs dest = false from hnd)]
    rfl

-- Witness for C3 (amended): a destination that exists as a directory where a
-- file is expected; empty answer retries, relative answer is rooted and
-- re-checked; and a directory source over a file destination errs.
theorem c3_file_source_kind_mismatch_rename_loop_witness :
    (collisionLoop "/ws" ⟨[], ["/ws/d"]⟩ "/ws/d" [none] =
        (collisionLoop "/ws" ⟨[], ["/ws/d"]⟩ "/ws/d" []).push (.ask "d") ∧
      collisionLoop "/ws" ⟨[], ["/ws/d"]⟩ "/ws/d" [some ""] =
        (collisionLoop "/ws" ⟨[], ["/ws/d"]⟩ "/ws/d" []).push (.ask "d")) ∧
    collisionLoop "/ws" ⟨[], ["/ws/d"]⟩ "/ws/d" [some "d2"] =
      (collisionLoop "/ws" ⟨[], ["/ws/d"]⟩ "/ws/d2" []).push (.ask "d") ∧
    copyFunc "/ws" false "/tpl/e" (.dir .nil) "/ws/e"
      ⟨⟨[("/ws/e", "x")], []⟩, [], []⟩ =
      .err "Failed to create directory /ws/e: file with same name exists."
        ⟨⟨[("/ws/e", "x")], []⟩, [], []⟩ := by
  refine ⟨?_, ?_, ?_⟩
  · have h := (c3_file_source_kind_mismatch_rename_loop "/ws").1
      ⟨[], ["/ws/d"]⟩ "/ws/d" [] (by decide) (by decide) (by decide)
    have e1 : relativePath "/ws" "/ws/d" = "d" := by decide
    exact ⟨by rw [h.1, e1], by rw [h.2, e1]⟩
  · have h := (c3_file_source_kind_mismatch_rename_loop "/ws").2.1
      ⟨[], ["/ws/d"]⟩ "/ws/d" [] "d2" (by decide) (by decide) (by decide) (by decide)
    have e1 : relativePath "/ws" "/ws/d" = "d" := by decide
    have e2 : pathJoin "/ws" "d2" = "/ws/d2" := by decide
    rw [h, e1, e2]
  · exact (c3_file_source_kind_mismatch_rename_loop "/ws").2.2
      ⟨[("/ws/e", "x")], []⟩ "/ws/e" "/tpl/e" .nil [] [] (by decide) (by decide)
      (by decide)

/-- C4: choosing Abort at a plain-file collision prompt stops the whole walk
immediately: the collision loop returns abort with the filesystem untouched,
`copyFunc` turns that into a stop signal preserving the state, the entry
loop returns that exact state no matter how many entries follow the aborting
one (nothing later is created, written, or prompted for — the answer stream
is not consumed further — and everything already written stays in the
returned state, with no rollback), and a directory level propagates the stop
upward unchanged. -/
theorem c4_abort_stops_walk_immediately (ws : String) :
    (∀ fs dest rest, existsFS fs dest = true → isFileFS fs dest = true →
      collisionLoop ws fs dest (some "Abort" :: rest) =
        .abort fs rest [.pick (relativePath ws dest)]) ∧
    (∀ src content dest st o2, gitSkip src = false →
      existsFS st.fs dest = true → isFileFS st.fs dest = true →
      st.oracle = some "Abort" :: o2 →
      copyFunc ws false src (.file content) dest st = .halt { st with oracle := o2 }) ∧
    (∀ useP src dest es1 n ch es2 st st1 st2,
      walkEntries ws useP src dest es1 st = .cont st1 →
      recursiveApplyInDir ws useP (pathJoin src n) (pathJoin dest n) ch st1 =
        .halt st2 →
      walkEntries ws useP src dest (appendEL es1 (.cons n ch es2)) st = .halt st2) ∧
    (∀ useP src dest es st st1 st2,
      copyFunc ws useP src (.dir es) dest st = .cont st1 →
      walkEntries ws useP src dest es st1 = .halt st2 →
      recursiveApplyInDir ws useP src dest (.dir es) st = .halt st2) := by
  refine ⟨fun fs dest rest hex hf => collisionLoop_abort ws fs dest rest hex hf,
    fun src content dest st o2 hg hex hf ho =>
      copyFunc_abort ws src content dest st o2 hg hex hf ho,
    ?_, ?_⟩
  · intro useP src dest es1 n ch es2 st st1 st2 h1 h2
    rw [walkEntries_append ws useP src dest es1 (.cons n ch es2) st, h1]
    show walkEntries ws useP src dest (.cons n ch es2) st1 = .halt st2
    rw [walkEntries_cons, h2]
  · intro useP src dest es st st1 st2 hc hw
    rw [recursiveApplyInDir_dir, hc]
    exact hw

-- Witness for C4: destination `/ws/b.txt` already exists; the walk writes
-- `a.txt`, the user aborts at `b.txt`, and the trailing entry `c.txt` is
-- never processed: the state returned is exactly the abort-point state.
theorem c4_abort_stops_walk_immediately_witness :
    copyFunc "/ws" false "/tpl/b.txt" (.file "B") "/ws/b.txt"
        ⟨⟨[("/ws/b.txt", "old")], []⟩, [], [some "Abort"]⟩ =
      .halt ⟨⟨[("/ws/b.txt", "old")], []⟩, [], []⟩ ∧
    walkEntries "/ws" false "/tpl" "/ws"
      (appendEL (.cons "a.txt" (.file "A") .nil)
        (.cons "b.txt" (.file "B") (.cons "c.txt" (.file "C") .nil)))
      ⟨⟨[("/ws/b.txt", "old")], []⟩, [], [some "Abort"]⟩ =
      .halt ⟨⟨[("/ws/a.txt", "A"), ("/ws/b.txt", "old")], ["/ws"]⟩, [], []⟩ := by
  constructor
  · exact (c4_abort_stops_walk_immediately "/ws").2.1 "/tpl/b.txt" "B" "/ws/b.txt"
      ⟨⟨[("/ws/b.txt", "old")], []⟩, [], [some "Abort"]⟩ [] (by decide) (by decide)
      (by decide) rfl
  · exact (c4_abort_stops_walk_immediately "/ws").2.2.1 false "/tpl" "/ws"
      (.cons "a.txt" (.file "A") .nil) "b.txt" (.file "B")
      (.cons "c.txt" (.file "C") .nil)
      ⟨⟨[("/ws/b.txt", "old")], []⟩, [], [some "Abort"]⟩
      ⟨⟨[("/ws/a.txt", "A"), ("/ws/b.txt", "old")], ["/ws"]⟩, [], [some "Abort"]⟩
      ⟨⟨[("/ws/a.txt", "A"), ("/ws/b.txt", "old")], ["/ws"]⟩, [], []⟩
      (by decide) (by decide)

/-- C6: choosing Skip at a plain-file collision suppresses exactly that one
entry: the collision loop returns skip with the filesystem untouched (the
existing destination file keeps its content), `copyFunc` reports continue
with the state unchanged apart from the consumed answer, and the entry loop
goes on to process every entry after the skipped one. -/
theorem c6_skip_suppresses_single_entry (ws : String) :
    (∀ fs dest rest, existsFS fs dest = true → isFileFS fs dest = true →
      collisionLoop ws fs dest (some "Skip" :: rest) =
        .skip fs rest [.pick (relativePath ws dest)]) ∧
    (∀ src content dest st o2, gitSkip src = false →
      existsFS st.fs dest = true → isFileFS st.fs dest = true →
      st.oracle = some "Skip" :: o2 →
      copyFunc ws false src (.file content) dest st = .cont { st with oracle := o2 }) ∧
    (∀ useP src dest es1 n ch es2 st st1 st2,
      walkEntries ws useP src dest es1 st = .cont st1 →
      recursiveApplyInDir ws useP (pathJoin src n) (pathJoin dest n) ch st1 =
        .cont st2 →
      walkEntries ws useP src dest (appendEL es1 (.cons n ch es2)) st =
        walkEntries ws useP src dest es2 st2) := by
  refine ⟨fun fs dest rest hex hf => collisionLoop_skip ws fs dest rest hex hf,
    fun src content dest st o2 hg hex hf ho =>
      copyFunc_skip ws src content dest st o2 hg hex hf ho, ?_⟩
  intro useP src dest es1 n ch es2 st st1 st2 h1 h2
  rw [walkEntries_append ws useP src dest es1 (.cons n ch es2) st, h1]
  show walkEntries ws useP src dest (.cons n ch es2) st1 = _
  rw [walkEntries_cons, h2]

-- Witness for C6: `/ws/a.txt` exists and is skipped; the later entry
-- `b.txt` is still processed, `a.txt` keeps its old content.
theorem c6_skip_suppresses_single_entry_witness :
    copyFunc "/ws" false "/tpl/a.txt" (.file "A") "/ws/a.txt"
        ⟨⟨[("/ws/a.txt", "old")], []⟩, [], [some "Skip"]⟩ =
      .cont ⟨⟨[("/ws/a.txt", "old")], []⟩, [], []⟩ ∧
    walkEntries "/ws" false "/tpl" "/ws"
      (appendEL (.cons "a.txt" (.file "A") .nil)
        (.cons "b.txt" (.file "B") .nil))
      ⟨⟨[("/ws/a.txt", "old")], []⟩, [], [some "Skip", some "Skip"]⟩ =
      walkEntries "/ws" false "/tpl" "/ws" (.cons "b.txt" (.file "B") .nil)
        ⟨⟨[("/ws/a.txt", "old")], []⟩, [], [some "Skip"]⟩ := by
  constructor
  · exact (c6_skip_suppresses_single_entry "/ws").2.1 "/tpl/a.txt" "A" "/ws/a.txt"
      ⟨⟨[("/ws/a.txt", "old")], []⟩, [], [some "Skip"]⟩ [] (by decide) (by decide)
      (by decide) rfl
  · exact (c6_skip_suppresses_single_entry "/ws").2.2 false "/tpl" "/ws" .nil
      "a.txt" (.file "A") (.cons "b.txt" (.file "B") .nil)
      ⟨⟨[("/ws/a.txt", "old")], []⟩, [], [some "Skip", some "Skip"]⟩
      ⟨⟨[("/ws/a.txt", "old")], []⟩, [], [some "Skip", some "Skip"]⟩
      ⟨⟨[("/ws/a.txt", "old")], []⟩, [], [some "Skip"]⟩ rfl (by decide)

end ProjectTemplates
